import Mathlib

/-!
Verification development for the bender-automator daemon core:
shallow embedding of the file-operation helpers (internal/fileops),
the undo ledger (UndoManager), the task queue (internal/task) and the
auto-file pipeline (cmd/benderd), together with theorems settling the
specification's claims about them.
-/

namespace Bender

/-! ### Path helpers (Go standard library functions used by the sources)

These model the Go `path/filepath` and `strings` functions on the clean,
slash-separated absolute paths the daemon works with. -/

/-- Scans a reversed character list for the last dot of the final path
element, accumulating the characters seen so far; models the scan inside
Go `filepath.Ext`. -/
def extFromRev : List Char → List Char → Option (List Char)
  | [], _ => none
  | c :: rest, acc =>
    if c = '/' then none
    else if c = '.' then some (c :: acc)
    else extFromRev rest (c :: acc)

/-- Go `filepath.Ext`: the suffix beginning at the final dot in the final
slash-separated element; empty when there is no dot. -/
def filepathExt (p : String) : String :=
  match extFromRev p.data.reverse [] with
  | none => ""
  | some l => String.mk l

/-- Characters of the final path element, scanning the reversed character
list up to the first slash. -/
def baseFromRev : List Char → List Char → List Char
  | [], acc => acc
  | c :: rest, acc => if c = '/' then acc else baseFromRev rest (c :: acc)

/-- Go `filepath.Base` on a clean path without trailing slash: the final
slash-separated element, or the path itself when it has no slash. -/
def filepathBase (p : String) : String :=
  String.mk (baseFromRev p.data.reverse [])

/-- Go `filepath.Dir` on a clean path without trailing slash: everything
before the final slash ("." when there is no slash, "/" when the final
slash is the leading one). -/
def filepathDir (p : String) : String :=
  let rev := p.data.reverse
  let base := baseFromRev rev []
  let restLen := p.data.length - base.length
  if base.length = p.data.length then "."
  else if restLen = 1 then "/"
  else String.mk (p.data.take (restLen - 1))

/-- Go `filepath.Join` of two nonempty clean components (no trailing slash
on the first, no leading slash on the second), where `Clean` is the
identity. -/
def filepathJoin (a b : String) : String :=
  if a = "" then b else if b = "" then a else a ++ "/" ++ b

/-- Go `strings.TrimPrefix` of the single character ".". -/
def trimDot (s : String) : String :=
  match s.data with
  | '.' :: rest => String.mk rest
  | _ => s

/-- ASCII lower-casing of one character. -/
def charToLower (c : Char) : Char :=
  if 'A' ≤ c ∧ c ≤ 'Z' then Char.ofNat (c.toNat + 32) else c

/-- Go `strings.EqualFold` restricted to the ASCII identifiers the
config uses (case-insensitive equality). -/
def eqFold (a b : String) : Bool :=
  a.data.map charToLower == b.data.map charToLower

/-! ### Filesystem world

The daemon's filesystem effects are embedded as explicit state passing
over a `World`: the set of currently existing file paths, plus a supply
of transient I/O faults. Each pair in `failingRenames` makes exactly one
`os.Rename` call with that source and destination fail with an I/O
error (the fault is consumed), which is how a disk or permission error
during a move is represented. -/

structure World where
  files : List String
  failingRenames : List (String × String)
  deriving Repr, DecidableEq

/-- `os.Stat` reduced to the existence check the sources make of it. -/
def statExists (w : World) (p : String) : Bool :=
  w.files.contains p

/-- `os.Rename src dst`: fails when a transient fault is scheduled for
this call (consuming it) or when the source does not exist; otherwise
the file now exists at `dst` and no longer at `src`. -/
def renameFS (w : World) (src dst : String) : Option String × World :=
  if w.failingRenames.contains (src, dst) then
    (some "input/output error", { w with failingRenames := w.failingRenames.erase (src, dst) })
  else if statExists w src then
    (none, { w with files := dst :: w.files.erase src })
  else
    (some "no such file or directory", w)

/-! ### internal/fileops: MoveFile, RenameFile, resolveConflict -/

/-- The suffixed candidate `base-i.ext` tried by `resolveConflict`. -/
def candidateName (base ext : String) (i : Nat) : String :=
  base ++ "-" ++ toString i ++ ext

/-- The `for i := 1; i < 1000; i++` probe loop of `resolveConflict`:
returns the first free suffixed candidate, or the original destination
when every candidate up to 999 exists. -/
def conflictLoop (w : World) (base ext dst : String) (i : Nat) : String :=
  if i ≥ 1000 then dst
  else
    let cand := candidateName base ext i
    if statExists w cand then conflictLoop w base ext dst (i + 1)
    else cand
termination_by 1000 - i

/-- `resolveConflict` from internal/fileops: appends -1, -2, … if the
destination already exists. -/
def resolveConflict (w : World) (dst : String) : String :=
  if !statExists w dst then dst
  else
    let ext := filepathExt dst
    let base := dst.dropRight ext.length
    conflictLoop w base ext dst 1

/-- `MoveFile` from internal/fileops. `os.MkdirAll` on the destination
directory is modelled as always succeeding (directories are not part of
the world). -/
def MoveFile (w : World) (src dst : String) : Except String (String × World) :=
  if !statExists w src then .error "source not found"
  else
    let dst1 := resolveConflict w dst
    match renameFS w src dst1 with
    | (some e, _) => .error ("move file: " ++ e)
    | (none, w1) => .ok (dst1, w1)

/-- `RenameFile` from internal/fileops: renames in place, preserving the
directory, with the same conflict resolution. -/
def RenameFile (w : World) (src newName : String) : Except String (String × World) :=
  if !statExists w src then .error "source not found"
  else
    let dst := filepathJoin (filepathDir src) newName
    let dst1 := resolveConflict w dst
    match renameFS w src dst1 with
    | (some e, _) => .error ("rename file: " ++ e)
    | (none, w1) => .ok (dst1, w1)

/-- The actual destination path returned by a successful move or rename. -/
def movedPath (r : Except String (String × World)) : Option String :=
  match r with
  | .ok (p, _) => some p
  | .error _ => none

/-- The world after a successful move or rename. -/
def movedWorld (r : Except String (String × World)) : Option World :=
  match r with
  | .ok (_, w) => some w
  | .error _ => none

/-! ### Undo ledger (internal/fileops UndoManager)

One row of the `file_operations` table. `createdAt` is the SQLite
DATETIME as a numeric timestamp. -/

structure OpRow where
  id : String
  taskID : String
  opType : String
  originalPath : String
  newPath : String
  createdAt : Nat
  deriving Repr, DecidableEq

/-- Inserts `x` in front of the first element it strictly precedes under
`r`. -/
def insertSorted (r : OpRow → OpRow → Bool) (x : OpRow) : List OpRow → List OpRow
  | [] => [x]
  | y :: ys => if r x y then x :: y :: ys else y :: insertSorted r x ys

/-- Insertion sort used to model a SQL ORDER BY clause (ties are left in
an arbitrary but fixed order, as SQLite leaves them unspecified). -/
def sortRows (r : OpRow → OpRow → Bool) : List OpRow → List OpRow
  | [] => []
  | x :: xs => insertSorted r x (sortRows r xs)

/-- Strictly-later creation time: the ORDER BY created_at DESC key. -/
def byCreatedDesc (a b : OpRow) : Bool :=
  b.createdAt < a.createdAt

/-- The query of `Undo` and `ListByTask`:
SELECT … WHERE task_id = ? ORDER BY created_at DESC. -/
def undoQuery (ledger : List OpRow) (tid : String) : List OpRow :=
  sortRows byCreatedDesc (ledger.filter (fun r => r.taskID == tid))

/-- The row loop inside `UndoManager.Undo`: for each row whose new_path
currently exists, move the file back (aborting the whole pass on an I/O
error, before any deletion happens); rows whose new_path is gone are
skipped but their ids are still collected for deletion.
Returns (undone count, collected ids, world, error). `os.MkdirAll` on
the original path's directory is modelled as always succeeding. -/
def undoGo (w : World) (undone : Nat) (ids : List String) :
    List OpRow → Nat × List String × World × Option String
  | [] => (undone, ids, w, none)
  | r :: rest =>
    if statExists w r.newPath then
      match renameFS w r.newPath r.originalPath with
      | (some e, w1) =>
          (undone, ids, w1, some ("undo move " ++ r.newPath ++ " -> " ++ r.originalPath ++ ": " ++ e))
      | (none, w1) => undoGo w1 (undone + 1) (ids ++ [r.id]) rest
    else undoGo w undone (ids ++ [r.id]) rest

/-- Result of one `Undo` call: the count returned, the error returned,
and the ledger and world afterwards. -/
structure UndoOut where
  undone : Nat
  err : Option String
  ledger : List OpRow
  world : World
  deriving Repr

/-- `UndoManager.Undo`: loads the task's rows most-recent-first, moves
each still-existing file back, and only when the whole pass finished
without an I/O error deletes the collected rows (the Go code returns
before the DELETE loop on error). -/
def Undo (ledger : List OpRow) (w : World) (tid : String) : UndoOut :=
  let rows := undoQuery ledger tid
  match undoGo w 0 [] rows with
  | (undone, ids, w1, none) =>
      ⟨undone, none, ledger.filter (fun r => !ids.contains r.id), w1⟩
  | (undone, _, w1, some e) => ⟨undone, some e, ledger, w1⟩

/-! ### Task queue (internal/task)

The Go `Task` struct, used both for rows of the `tasks` table and for
the in-memory `*Task` values travelling through the dispatch channel
(statuses are the Go strings; timestamps other than `createdAt` are not
tracked). -/

structure Task where
  id : String
  ttype : String
  priority : Int
  payload : String
  status : String
  result : Option String
  error : String
  createdAt : Nat
  retryCount : Nat
  maxRetries : Nat
  deriving Repr, DecidableEq

/-- Queue state: the durable `tasks` table, the buffered dispatch
channel (capacity `cap`, 100 in the source), the deferred-retry
goroutines (each holding the fixed retry delay and the task it will
resubmit), the registered handler types, and the queue configuration. -/
structure QueueState where
  store : List Task
  buffer : List Task
  deferred : List (Nat × Task)
  handlers : List String
  cap : Nat
  maxRetries : Nat
  retryDelay : Nat
  taskTimeout : Nat
  deriving Repr

/-- `Queue.updateTask`: UPDATE tasks SET status, result, error,
started_at, finished_at, retry_count WHERE id = ? — every column it
writes comes from the in-memory task; type, priority, payload,
created_at and max_retries keep their stored values. -/
def updateTask (store : List Task) (m : Task) : List Task :=
  store.map fun r =>
    if r.id == m.id then
      { r with status := m.status, result := m.result, error := m.error,
               retryCount := m.retryCount }
    else r

/-- `Queue.failTask`: mark the task failed with the error string and
persist. -/
def failTask (st : QueueState) (m : Task) (e : String) : QueueState :=
  let m1 := { m with status := "failed", error := e }
  { st with store := updateTask st.store m1 }

/-- `Queue.processTask` for one dispatched task. The handler itself is
external I/O, so its outcome is an input: `.ok r` for a result, `.error
e` for a handler error. The status is unconditionally written to the
store at each transition, exactly as `updateTask` does. A retried task
is handed to a deferred goroutine (`deferred`), not put back in the
buffer synchronously. -/
def processTask (st : QueueState) (m : Task) (outcome : Except String String) : QueueState :=
  if !st.handlers.contains m.ttype then
    failTask st m ("no handler for task type: " ++ m.ttype)
  else
    let m1 := { m with status := "running" }
    let st1 := { st with store := updateTask st.store m1 }
    match outcome with
    | .error e =>
      if m1.retryCount < m1.maxRetries then
        let m2 := { m1 with retryCount := m1.retryCount + 1, status := "pending" }
        let st2 := { st1 with store := updateTask st1.store m2 }
        { st2 with deferred := st2.deferred ++ [(st2.retryDelay, m2)] }
      else failTask st1 m1 e
    | .ok r =>
      let m2 := { m1 with status := "completed", result := some r }
      { st1 with store := updateTask st1.store m2 }

/-- The pending task `Queue.Enqueue` builds (`generateID` is the
current UnixNano timestamp; max_retries comes from the queue config). -/
def newTask (st : QueueState) (ttype payload : String) (priority : Int) (now : Nat) : Task :=
  { id := toString now, ttype := ttype, priority := priority, payload := payload,
    status := "pending", result := none, error := "", createdAt := now,
    retryCount := 0, maxRetries := st.maxRetries }

/-- `Queue.Enqueue`: INSERT the pending row first, then try a
non-blocking send to the buffer; a full buffer reports "task queue
full" to the caller but the inserted row stays. A duplicate id violates
the PRIMARY KEY and fails the INSERT. -/
def enqueue (st : QueueState) (ttype payload : String) (priority : Int) (now : Nat) :
    QueueState × Except String Task :=
  let t := newTask st ttype payload priority now
  if st.store.any (fun r => r.id == t.id) then
    (st, .error "insert task: UNIQUE constraint failed")
  else
    let st1 := { st with store := st.store ++ [t] }
    if st1.buffer.length < st1.cap then
      ({ st1 with buffer := st1.buffer ++ [t] }, .ok t)
    else
      (st1, .error "task queue full")

/-- The row transformation of `Queue.CancelTask`'s UPDATE: only rows
with the given id that are still pending or running are forced to
failed with the sentinel error. -/
def cancelRow (id : String) (r : Task) : Task :=
  if r.id == id && (r.status == "pending" || r.status == "running") then
    { r with status := "failed", error := "cancelled by user" }
  else r

/-- `Queue.CancelTask`: run the guarded UPDATE; when it affects no row,
report "not found or already completed". -/
def cancelTask (st : QueueState) (id : String) : QueueState × Option String :=
  let affected := st.store.any fun r =>
    r.id == id && (r.status == "pending" || r.status == "running")
  if affected then
    ({ st with store := st.store.map (cancelRow id) }, none)
  else
    (st, some ("task " ++ id ++ " not found or already completed"))

/-- One observable action of the running queue: an `Enqueue` call, a
`CancelTask` call, a worker pulling the head of the buffer and running
`processTask` with the given handler outcome, or a deferred-retry
goroutine delivering its task into the buffer (its blocking send is
enabled once the buffer has room). -/
inductive QAction where
  | enq (ttype payload : String) (priority : Int) (now : Nat)
  | cancel (id : String)
  | dispatch (outcome : Except String String)
  | deliverRetry
  deriving Repr

/-- Step function of the queue as a state machine over `QAction`. -/
def stepQ (st : QueueState) : QAction → QueueState
  | .enq ty p pr now => (enqueue st ty p pr now).1
  | .cancel id => (cancelTask st id).1
  | .dispatch outcome =>
    match st.buffer with
    | [] => st
    | m :: rest => processTask { st with buffer := rest } m outcome
  | .deliverRetry =>
    match st.deferred with
    | [] => st
    | pm :: rest =>
      if st.buffer.length < st.cap then
        { st with deferred := rest, buffer := st.buffer ++ [pm.2] }
      else st

/-- Runs a sequence of queue actions. -/
def runQ (st : QueueState) (acts : List QAction) : QueueState :=
  acts.foldl stepQ st

/-- A freshly constructed queue (`NewQueue`): empty store, empty
buffer, no deferred retries; handlers are those registered before
`Start`. -/
def initQueue (handlers : List String) (cap maxRetries retryDelay taskTimeout : Nat) :
    QueueState :=
  { store := [], buffer := [], deferred := [], handlers := handlers,
    cap := cap, maxRetries := maxRetries, retryDelay := retryDelay,
    taskTimeout := taskTimeout }

/-- The in-memory task built by `restartPending`'s row scan: only id,
type, priority, payload, retry_count and max_retries are selected; the
other fields keep their Go zero values. -/
def restartRow (r : Task) : Task :=
  { id := r.id, ttype := r.ttype, priority := r.priority, payload := r.payload,
    status := "", result := none, error := "", createdAt := 0,
    retryCount := r.retryCount, maxRetries := r.maxRetries }

/-- Strictly-before key of ORDER BY priority DESC, created_at ASC. -/
def restartBefore (a b : Task) : Bool :=
  b.priority < a.priority || (a.priority == b.priority && a.createdAt < b.createdAt)

/-- Insertion for the restart ordering. -/
def insertRestart (x : Task) : List Task → List Task
  | [] => [x]
  | y :: ys => if restartBefore x y then x :: y :: ys else y :: insertRestart x ys

/-- Insertion sort modelling the restart query's ORDER BY. -/
def sortRestart : List Task → List Task
  | [] => []
  | x :: xs => insertRestart x (sortRestart xs)

/-- `Queue.restartPending`: select the pending/running rows ordered by
priority descending then creation time ascending, and resubmit each
with a non-blocking send — a full buffer just drops (skips) the task,
logging a warning; the function itself returns no error and never
touches the store. -/
def restartPending (st : QueueState) : QueueState × Option String :=
  let rows := sortRestart (st.store.filter fun r =>
    r.status == "pending" || r.status == "running")
  let buf := rows.foldl
    (fun buf r => if buf.length < st.cap then buf ++ [restartRow r] else buf)
    st.buffer
  ({ st with buffer := buf }, none)

/-! ### Handler contexts -/

/-- The value-carrying, deadline-carrying part of a Go `context.Context`
as the sources use it. -/
structure Context where
  deadline : Option Nat
  values : List (String × String)
  deriving Repr, DecidableEq

/-- The context `processTask` builds for the handler invocation:
`context.WithTimeout(q.ctx, q.taskTimeout)` — a deadline over the
queue's background context, and nothing else; no call attaches the
task's id to it. -/
def processTaskCtx (st : QueueState) : Context :=
  { deadline := some st.taskTimeout, values := [] }

/-- The context key under which the task id would travel. -/
def taskIDKey : String := "taskID"

/-- Modelled from the spec: `TaskIDFromContext` is called by the
pipelines and by the task-queue tests but is absent from the sources
(the repository's plan lists it as the ambient-context task-id lookup
still to be added). Per the spec's design note on the implicit
side-channel for task identity, it reads the task id stored under the
context key, returning the empty string when no id was attached. -/
def TaskIDFromContext (ctx : Context) : String :=
  match ctx.values.lookup taskIDKey with
  | some v => v
  | none => ""

/-! ### waitForSettle (cmd/benderd/pipelines.go)

Real time is embedded as an explicit millisecond timeline: `tc` is the
absolute time at which the context is cancelled (none = never), and
`sizeAt t` is the watched file's size at absolute time `t` (none = the
file does not exist then). The first `os.Stat` happens at time 0. -/

/-- One `select { case <-ctx.Done(); case <-time.After(delay) }` block
starting at `start`: the cancellation branch wins when the cancel time
falls strictly before the timer fires (an already-expired context is
ready immediately); returns (cancelled?, absolute time when the select
returns). -/
def selectWait (tc : Option Nat) (start delay : Nat) : Bool × Nat :=
  match tc with
  | none => (false, start + delay)
  | some u =>
    if start + delay ≤ u then (false, start + delay)
    else (true, max u start)

/-- The wait duration `waitForSettle` uses: `delayMs` milliseconds,
defaulted to 2000 when non-positive. -/
def settleDelay (delayMs : Int) : Nat :=
  if delayMs ≤ 0 then 2000 else delayMs.toNat

/-- `waitForSettle`: stat, wait `settleDelay delayMs`, stat again; on a
size change allow one further round and then require stability; fail
whenever the file is missing at a check or a wait is cancelled.
Returns the result together with the absolute time at which the
function returns. -/
def waitForSettle (tc : Option Nat) (sizeAt : Nat → Option Int) (delayMs : Int) :
    Except String Unit × Nat :=
  let delay : Nat := settleDelay delayMs
  match sizeAt 0 with
  | none => (.error "file not found", 0)
  | some s1 =>
    match selectWait tc 0 delay with
    | (true, t1) => (.error "context canceled", t1)
    | (false, t1) =>
      match sizeAt t1 with
      | none => (.error "file disappeared", t1)
      | some s2 =>
        if s1 ≠ s2 then
          match selectWait tc t1 delay with
          | (true, t2) => (.error "context canceled", t2)
          | (false, t2) =>
            match sizeAt t2 with
            | none => (.error "file disappeared", t2)
            | some s3 =>
              if s2 ≠ s3 then (.error "file still changing size", t2)
              else (.ok (), t2)
        else (.ok (), t1)

/-! ### Auto-file pipeline (cmd/benderd) -/

/-- One entry of config `AutoFileConfig.Categories`. -/
structure Category where
  name : String
  path : String
  extensions : List String
  description : String
  deriving Repr, DecidableEq

/-- The fields of `AutoFileConfig` the classify handler and the
auto-file pipeline read. -/
structure AutoFileCfg where
  destinationRoot : String
  categories : List Category
  useLLMClassification : Bool
  autoMove : Bool
  autoRename : Bool
  settleDelayMs : Int
  deriving Repr

/-- The JSON result of `handleFileClassify`. -/
structure ClassifyResult where
  category : String
  destination : String
  confidence : String
  deriving Repr, DecidableEq

/-- The nested category/extension loops of `handleFileClassify`: the
first category one of whose extensions case-insensitively equals the
file's extension. -/
def findExtCategory (cats : List Category) (ext : String) : Option Category :=
  cats.find? fun cat => cat.extensions.any fun catExt => eqFold ext catExt

/-- The category lookup after LLM classification: the first category
whose name case-insensitively equals the reported category. -/
def findNameCategory (cats : List Category) (category : String) : Option Category :=
  cats.find? fun cat => eqFold cat.name category

/-- `handleFileClassify` (cmd/benderd/handlers.go). The LLM call is an
external Provider capability, abstracted as its outcome `llm` (the raw
response content, or an error); the content preview and prompt assembly
only feed that call. The payload is represented by the path it
carries. -/
def handleFileClassify (w : World) (cfg : AutoFileCfg) (llm : Except String String)
    (path : String) : Except String ClassifyResult :=
  if path = "" then .error "empty path"
  else if !statExists w path then .error "stat file: no such file or directory"
  else
    let ext := trimDot (filepathExt path)
    let name := filepathBase path
    match findExtCategory cfg.categories ext with
    | some cat => .ok ⟨cat.name, filepathJoin cat.path name, "high"⟩
    | none =>
      if !cfg.useLLMClassification then
        .ok ⟨"unknown", filepathJoin cfg.destinationRoot name, "none"⟩
      else
        match llm with
        | .error e => .error ("llm completion: " ++ e)
        | .ok content =>
          let category := content.trim.toLower
          match findNameCategory cfg.categories category with
          | some cat => .ok ⟨category, filepathJoin cat.path name, "high"⟩
          | none => .ok ⟨category, filepathJoin cfg.destinationRoot name, "medium"⟩

/-- One pipeline step of the audit trail. -/
structure PipelineStep where
  name : String
  status : String
  detail : String
  deriving Repr, DecidableEq

/-- An operation handed to `UndoManager.Record` by the pipeline (its id
and timestamp come from the wall clock and are not determined by the
pipeline's inputs). -/
structure RecordedOp where
  taskID : String
  opType : String
  originalPath : String
  newPath : String
  deriving Repr, DecidableEq

/-- The JSON result of `RunAutoFilePipeline`. -/
structure AutoFileResult where
  originalPath : String
  finalPath : String
  category : String
  newName : String
  steps : List PipelineStep
  deriving Repr, DecidableEq

/-- External inputs of one auto-file pipeline run: the context cancel
time, the settle-phase size timeline of the target file, the outcome of
the classify handler's LLM call, and the outcome of `handleFileRename`
(a Provider-backed handler, abstracted as the suggested new name it
returns). -/
structure PipeEnv where
  tc : Option Nat
  sizeAt : Nat → Option Int
  classifyLLM : Except String String
  renameName : Except String String

/-- `PipelineRunner.RunAutoFilePipeline`: settle → classify → optional
move → optional rename → notify, threading the single current path,
recording a ledger operation after each successful tracked mutation
when a task id is present, and collecting the ordered step trace.
Settle and classify failures are fatal; move and rename failures are
recorded as error steps and the pipeline continues on the unmoved path.
The notifier is best-effort and does not affect the result. Returns the
handler outcome together with the world after the run and the recorded
undo operations. -/
def RunAutoFilePipeline (env : PipeEnv) (w : World) (cfg : AutoFileCfg)
    (ctxTaskID : String) (path : String) :
    Except String AutoFileResult × World × List RecordedOp :=
  if path = "" then (.error "empty path", w, [])
  else
    match (waitForSettle env.tc env.sizeAt cfg.settleDelayMs).1 with
    | .error e => (.error ("settle: " ++ e), w, [])
    | .ok () =>
      let steps1 : List PipelineStep := [⟨"settle", "ok", ""⟩]
      match handleFileClassify w cfg env.classifyLLM path with
      | .error e => (.error ("classify: " ++ e), w, [])
      | .ok cr =>
        let steps2 := steps1 ++ [⟨"classify", "ok", cr.category⟩]
        let moveOut : World × String × List PipelineStep × List RecordedOp :=
          if cfg.autoMove && cr.destination != "" && cr.destination != path then
            match MoveFile w path cr.destination with
            | .error e => (w, path, steps2 ++ [⟨"move", "error", e⟩], [])
            | .ok (actual, w1) =>
              (w1, actual,
               steps2 ++ [⟨"move", "ok", actual⟩],
               if ctxTaskID != "" then [⟨ctxTaskID, "move", path, actual⟩] else [])
          else (w, path, steps2, [])
        let w2 := moveOut.1
        let cur2 := moveOut.2.1
        let steps3 := moveOut.2.2.1
        let ops2 := moveOut.2.2.2
        let renOut : World × String × String × List PipelineStep × List RecordedOp :=
          if cfg.autoRename then
            match env.renameName with
            | .error e => (w2, cur2, "", steps3 ++ [⟨"rename", "error", e⟩], ops2)
            | .ok newName =>
              if newName != "" && newName != filepathBase cur2 then
                match RenameFile w2 cur2 newName with
                | .error e => (w2, cur2, "", steps3 ++ [⟨"rename", "error", e⟩], ops2)
                | .ok (actual, w3) =>
                  (w3, actual, newName,
                   steps3 ++ [⟨"rename", "ok", newName⟩],
                   ops2 ++ (if ctxTaskID != "" then [⟨ctxTaskID, "rename", cur2, actual⟩] else []))
              else (w2, cur2, "", steps3, ops2)
          else (w2, cur2, "", steps3, ops2)
        let w4 := renOut.1
        let finalPath := renOut.2.1
        let newName := renOut.2.2.1
        let steps4 := renOut.2.2.2.1
        let ops3 := renOut.2.2.2.2
        (.ok ⟨path, finalPath, cr.category, newName, steps4⟩, w4, ops3)

/-! ## Theorems -/

/-! ### Conflict resolution (claim C4) -/

/-- When some candidate index `k ≤ 999` is free and every earlier index
is taken, the probe loop stops exactly at `k`. -/
lemma conflictLoop_found (w : World) (base ext dst : String) :
    ∀ (n i k : Nat), k - i = n → i ≤ k → k ≤ 999 →
      statExists w (candidateName base ext k) = false →
      (∀ j, i ≤ j → j < k → statExists w (candidateName base ext j) = true) →
      conflictLoop w base ext dst i = candidateName base ext k := by
  intro n
  induction n with
  | zero =>
    intro i k hn hik hk hfree _hall
    have hik' : i = k := by omega
    subst hik'
    unfold conflictLoop
    simp [show ¬ i ≥ 1000 by omega, hfree]
  | succ n ih =>
    intro i k hn hik hk hfree hall
    have hlt : i < k := by omega
    have htaken := hall i le_rfl hlt
    unfold conflictLoop
    simp [show ¬ i ≥ 1000 by omega, htaken]
    exact ih (i + 1) k (by omega) (by omega) hk hfree
      (fun j hj1 hj2 => hall j (by omega) hj2)

/-- When every candidate index from `i` through 999 is taken, the probe
loop falls back to the original destination. -/
lemma conflictLoop_allTaken (w : World) (base ext dst : String) :
    ∀ (n i : Nat), 1000 - i = n →
      (∀ j, i ≤ j → j ≤ 999 → statExists w (candidateName base ext j) = true) →
      conflictLoop w base ext dst i = dst := by
  intro n
  induction n with
  | zero =>
    intro i hn _hall
    unfold conflictLoop
    simp [show i ≥ 1000 by omega]
  | succ n ih =>
    intro i hn hall
    have hi : i ≤ 999 := by omega
    have htaken := hall i le_rfl hi
    unfold conflictLoop
    simp [show ¬ i ≥ 1000 by omega, htaken]
    exact ih (i + 1) (by omega) (fun j hj1 hj2 => hall j (by omega) hj2)

/-- `resolveConflict` on an occupied destination returns the first
free suffixed candidate when one exists below the 1000 cap. -/
lemma resolveConflict_found (w : World) (dst : String) (k : Nat)
    (hdst : statExists w dst = true) (hk1 : 1 ≤ k) (hk : k ≤ 999)
    (hfree : statExists w
      (candidateName (dst.dropRight (filepathExt dst).length) (filepathExt dst) k) = false)
    (htaken : ∀ j, 1 ≤ j → j < k → statExists w
      (candidateName (dst.dropRight (filepathExt dst).length) (filepathExt dst) j) = true) :
    resolveConflict w dst =
      candidateName (dst.dropRight (filepathExt dst).length) (filepathExt dst) k := by
  unfold resolveConflict
  simp only [hdst, Bool.not_true, Bool.false_eq_true, if_false]
  exact conflictLoop_found w _ _ dst (k - 1) 1 k (by omega) hk1 hk hfree htaken

/-- C4, amended: when the destination of a MoveFile or RenameFile call
already exists and one of the suffixed candidates base-1.ext …
base-999.ext is still free, the file is placed at the first free
candidate (the first conflict yields base-1.ext, the next base-2.ext)
and that path — a path that did not previously exist — is the returned
actual path; both movers return exactly the path `resolveConflict`
chooses. The probe loop is capped at 999 candidates, so the claim's
unconditional "never overwrites" fails (see the counterexample). -/
theorem spec_C4_theorem (w : World) (src dst newName : String) (k : Nat)
    (hsrc : statExists w src = true)
    (hfail : w.failingRenames = [])
    (hdst : statExists w dst = true)
    (hk1 : 1 ≤ k) (hk : k ≤ 999)
    (hfree : statExists w
      (candidateName (dst.dropRight (filepathExt dst).length) (filepathExt dst) k) = false)
    (htaken : ∀ j, 1 ≤ j → j < k → statExists w
      (candidateName (dst.dropRight (filepathExt dst).length) (filepathExt dst) j) = true) :
    movedPath (MoveFile w src dst) =
      some (candidateName (dst.dropRight (filepathExt dst).length) (filepathExt dst) k) ∧
    statExists w
      (candidateName (dst.dropRight (filepathExt dst).length) (filepathExt dst) k) = false ∧
    movedPath (RenameFile w src newName) =
      some (resolveConflict w (filepathJoin (filepathDir src) newName)) := by
  have hres := resolveConflict_found w dst k hdst hk1 hk hfree htaken
  refine ⟨?_, hfree, ?_⟩
  · unfold MoveFile
    simp only [hsrc, Bool.not_true, Bool.false_eq_true, if_false, hres]
    unfold renameFS
    simp [hfail, hsrc, movedPath]
  · unfold RenameFile
    simp only [hsrc, Bool.not_true, Bool.false_eq_true, if_false]
    unfold renameFS
    simp [hfail, hsrc, movedPath]

/-- C4 witness: one conflict at a concrete destination resolves to the
-1 suffix, with the amended theorem's hypotheses discharged by
evaluation (the earlier-candidates hypothesis is vacuous at k = 1). -/
theorem spec_C4_witness :
    movedPath (MoveFile ⟨["/d/a.txt", "/s/b"], []⟩ "/s/b" "/d/a.txt") =
      some (candidateName ("/d/a.txt".dropRight (filepathExt "/d/a.txt").length)
        (filepathExt "/d/a.txt") 1) ∧
    statExists ⟨["/d/a.txt", "/s/b"], []⟩
      (candidateName ("/d/a.txt".dropRight (filepathExt "/d/a.txt").length)
        (filepathExt "/d/a.txt") 1) = false ∧
    movedPath (RenameFile ⟨["/d/a.txt", "/s/b"], []⟩ "/s/b" "c.txt") =
      some (resolveConflict ⟨["/d/a.txt", "/s/b"], []⟩
        (filepathJoin (filepathDir "/s/b") "c.txt")) :=
  spec_C4_theorem ⟨["/d/a.txt", "/s/b"], []⟩ "/s/b" "/d/a.txt" "c.txt" 1
    (by decide) rfl (by decide) (by decide) (by decide) (by decide)
    (fun j h1 h2 => absurd (Nat.lt_of_lt_of_le h2 h1) (Nat.lt_irrefl j))

/-- A directory holding `f`, the source `s`, and every suffixed
candidate `f-1` … `f-999`: the probe loop is exhausted. -/
def c4World : World :=
  ⟨"f" :: "s" :: (List.range 999).map (fun i => "f-" ++ toString (i + 1)), []⟩

/-- Every candidate index 1..999 is occupied in `c4World`. -/
lemma c4World_taken : ∀ j, 1 ≤ j → j ≤ 999 →
    statExists c4World (candidateName "f" "" j) = true := by
  intro j h1 h9
  have h2 : candidateName "f" "" j = "f-" ++ toString j := by
    show (("f" ++ "-") ++ toString j) ++ "" = "f-" ++ toString j
    rw [String.append_empty]
    rfl
  have hmem : ("f-" ++ toString j) ∈ c4World.files := by
    have hm : ("f-" ++ toString ((j - 1) + 1)) ∈
        (List.range 999).map (fun i => "f-" ++ toString (i + 1)) :=
      List.mem_map_of_mem _ (List.mem_range.mpr (by omega))
    have hj : (j - 1) + 1 = j := by omega
    rw [hj] at hm
    exact List.mem_cons_of_mem _ (List.mem_cons_of_mem _ hm)
  rw [h2]
  exact List.elem_eq_true_of_mem hmem

/-- C4, counterexample to the claim as stated: the destination "f"
exists, yet the returned actual path is "f" itself — `os.Rename`
then lands on the occupied destination, overwriting it — because all
999 suffixed candidates are also taken. -/
theorem spec_C4_counterexample :
    movedPath (MoveFile c4World "s" "f") = some "f" ∧
    statExists c4World "f" = true := by
  have hf : statExists c4World "f" = true := by decide
  have hres : resolveConflict c4World "f" = "f" := by
    unfold resolveConflict
    simp only [hf, Bool.not_true, Bool.false_eq_true, if_false]
    show conflictLoop c4World "f" "" "f" 1 = "f"
    exact conflictLoop_allTaken c4World "f" "" "f" 999 1 rfl c4World_taken
  have hs : statExists c4World "s" = true := by decide
  refine ⟨?_, hf⟩
  unfold MoveFile
  simp only [hs, Bool.not_true, Bool.false_eq_true, if_false, hres]
  unfold renameFS
  simp [show c4World.failingRenames = [] from rfl, hs, movedPath]

/-! ### Undo ledger (claims C2, C5) -/

/-- Membership is preserved by the sorting insertion. -/
lemma mem_insertSorted (r : OpRow → OpRow → Bool) (x a : OpRow) :
    ∀ l, a ∈ insertSorted r x l ↔ a = x ∨ a ∈ l := by
  intro l
  induction l with
  | nil => simp [insertSorted]
  | cons y ys ih =>
    unfold insertSorted
    by_cases h : r x y
    · simp [h]
    · simp [h, ih]
      tauto

/-- The modelled ORDER BY is a permutation: membership is preserved. -/
lemma mem_sortRows (r : OpRow → OpRow → Bool) (a : OpRow) :
    ∀ l, a ∈ sortRows r l ↔ a ∈ l := by
  intro l
  induction l with
  | nil => simp [sortRows]
  | cons x xs ih => simp [sortRows, mem_insertSorted, ih]

/-- When the undo pass finishes without an I/O error, the collected ids
are exactly the ids of all processed rows, in processing order. -/
lemma undoGo_ids_of_ok :
    ∀ (rows : List OpRow) (w : World) (undone : Nat) (acc : List String),
      (undoGo w undone acc rows).2.2.2 = none →
      (undoGo w undone acc rows).2.1 = acc ++ rows.map OpRow.id := by
  intro rows
  induction rows with
  | nil => intro w undone acc _h; simp [undoGo]
  | cons r rest ih =>
    intro w undone acc h
    by_cases hst : statExists w r.newPath
    · rcases hrn : renameFS w r.newPath r.originalPath with ⟨o, w1⟩
      cases o with
      | none =>
        simp only [undoGo, hst, if_true, hrn] at h ⊢
        rw [ih _ _ _ h]
        simp
      | some e =>
        simp [undoGo, hst, hrn] at h
    · simp only [undoGo, hst, Bool.false_eq_true, if_false] at h ⊢
      rw [ih _ _ _ h]
      simp

/-- C2, amended: after a call to Undo(taskId) that completes its pass
without an I/O error, no ledger rows for that task remain — whether or
not individual move-backs were skipped — so an immediately following
second Undo(taskId) returns undone = 0; but a pass aborted by an I/O
error deletes no ledger rows at all (the deletion happens only after
the loop), leaving even the already-undone operations in the ledger. -/
theorem spec_C2_theorem (ledger : List OpRow) (w : World) (tid : String) :
    ((Undo ledger w tid).err = none →
      (Undo ledger w tid).ledger.filter (fun r => r.taskID == tid) = [] ∧
      (Undo (Undo ledger w tid).ledger (Undo ledger w tid).world tid).undone = 0 ∧
      (Undo (Undo ledger w tid).ledger (Undo ledger w tid).world tid).err = none) ∧
    ((Undo ledger w tid).err ≠ none → (Undo ledger w tid).ledger = ledger) := by
  rcases hgo : undoGo w 0 [] (undoQuery ledger tid) with ⟨undone, ids, w1, err⟩
  cases err with
  | some e =>
    constructor
    · intro h
      simp only [Undo, hgo] at h
      exact absurd h (by simp)
    · intro _h
      simp only [Undo, hgo]
  | none =>
    have hids : ids = (undoQuery ledger tid).map OpRow.id := by
      have h1 := undoGo_ids_of_ok (undoQuery ledger tid) w 0 [] (by rw [hgo])
      rw [hgo] at h1
      simpa using h1
    have hfilter :
        (ledger.filter (fun r => !ids.contains r.id)).filter
          (fun r => r.taskID == tid) = [] := by
      rw [List.filter_eq_nil_iff]
      intro r hr htid
      have hr1 : r ∈ ledger := (List.mem_filter.mp hr).1
      have hr2 : (!ids.contains r.id) = true := (List.mem_filter.mp hr).2
      have hrq : r ∈ undoQuery ledger tid := by
        rw [undoQuery, mem_sortRows]
        exact List.mem_filter.mpr ⟨hr1, htid⟩
      have hin : r.id ∈ ids := by
        rw [hids]
        exact List.mem_map_of_mem _ hrq
      have hc : ids.contains r.id = true := List.elem_eq_true_of_mem hin
      rw [hc] at hr2
      simp at hr2
    constructor
    · intro _h
      refine ⟨by simp only [Undo, hgo]; exact hfilter, ?_, ?_⟩
      all_goals
        simp only [Undo, hgo]
        rw [show undoQuery (ledger.filter (fun r => !ids.contains r.id)) tid = [] by
          rw [undoQuery, hfilter]; rfl]
        simp [undoGo]
    · intro h
      simp only [Undo, hgo] at h
      exact absurd rfl h

/-- One recorded move whose reversal hits a transient I/O fault. -/
def c2Ledger : List OpRow := [⟨"op1", "t1", "move", "/orig", "/new", 1⟩]

/-- The moved file exists, but renaming it back fails once. -/
def c2World : World := ⟨["/new"], [("/new", "/orig")]⟩

/-- C2, counterexample to the claim as stated: the first Undo pass is
aborted by the I/O error, after which the task's ledger row is still
there, and the immediately following second Undo call — the fault was
transient — undoes it and returns 1, not 0. -/
theorem spec_C2_counterexample :
    (Undo c2Ledger c2World "t1").ledger.filter (fun r => r.taskID == "t1") ≠ [] ∧
    (Undo (Undo c2Ledger c2World "t1").ledger
      (Undo c2Ledger c2World "t1").world "t1").undone = 1 := by
  refine ⟨by decide, by decide⟩

/-- C2 witness: a concrete error-free Undo pass, with the hypothesis of
the amended theorem discharged by evaluation. -/
theorem spec_C2_witness :
    (Undo [⟨"a", "t", "move", "/p", "/q", 3⟩] ⟨["/q"], []⟩ "t").err = none ∧
    ((Undo [⟨"a", "t", "move", "/p", "/q", 3⟩] ⟨["/q"], []⟩ "t").ledger.filter
        (fun r => r.taskID == "t") = [] ∧
      (Undo (Undo [⟨"a", "t", "move", "/p", "/q", 3⟩] ⟨["/q"], []⟩ "t").ledger
        (Undo [⟨"a", "t", "move", "/p", "/q", 3⟩] ⟨["/q"], []⟩ "t").world "t").undone = 0 ∧
      (Undo (Undo [⟨"a", "t", "move", "/p", "/q", 3⟩] ⟨["/q"], []⟩ "t").ledger
        (Undo [⟨"a", "t", "move", "/p", "/q", 3⟩] ⟨["/q"], []⟩ "t").world "t").err = none) :=
  ⟨by decide, (spec_C2_theorem _ _ _).1 (by decide)⟩

/-- C5: a task with exactly two ledgered operations in chronological
order — a rename `p0 → p1`, then a move `p1 → p2` — where each
operation's new_path exists when it is processed: Undo loads them
most-recent-first (the move before the rename), undoes both, leaves
the file at the original pre-rename path `p0`, returns undone = 2, and
clears the task's ledger rows. -/
theorem spec_C5_theorem (p0 p1 p2 tid id1 id2 : String) (t1 t2 : Nat) (ht : t1 < t2) :
    undoQuery [⟨id1, tid, "rename", p0, p1, t1⟩, ⟨id2, tid, "move", p1, p2, t2⟩] tid =
      [⟨id2, tid, "move", p1, p2, t2⟩, ⟨id1, tid, "rename", p0, p1, t1⟩] ∧
    (Undo [⟨id1, tid, "rename", p0, p1, t1⟩, ⟨id2, tid, "move", p1, p2, t2⟩]
        ⟨[p2], []⟩ tid).undone = 2 ∧
    (Undo [⟨id1, tid, "rename", p0, p1, t1⟩, ⟨id2, tid, "move", p1, p2, t2⟩]
        ⟨[p2], []⟩ tid).err = none ∧
    (Undo [⟨id1, tid, "rename", p0, p1, t1⟩, ⟨id2, tid, "move", p1, p2, t2⟩]
        ⟨[p2], []⟩ tid).world.files = [p0] ∧
    (Undo [⟨id1, tid, "rename", p0, p1, t1⟩, ⟨id2, tid, "move", p1, p2, t2⟩]
        ⟨[p2], []⟩ tid).ledger = [] := by
  have hb : byCreatedDesc ⟨id1, tid, "rename", p0, p1, t1⟩
      ⟨id2, tid, "move", p1, p2, t2⟩ = false := by
    simp [byCreatedDesc]
    omega
  have hq : undoQuery [⟨id1, tid, "rename", p0, p1, t1⟩, ⟨id2, tid, "move", p1, p2, t2⟩] tid =
      [⟨id2, tid, "move", p1, p2, t2⟩, ⟨id1, tid, "rename", p0, p1, t1⟩] := by
    simp [undoQuery, sortRows, insertSorted, hb]
  have hgo : undoGo ⟨[p2], []⟩ 0 []
      [⟨id2, tid, "move", p1, p2, t2⟩, ⟨id1, tid, "rename", p0, p1, t1⟩] =
      (2, [id2, id1], ⟨[p0], []⟩, none) := by
    simp [undoGo, statExists, renameFS, List.erase_cons_head]
  have hc1 : ([id2, id1].contains id1) = true := List.elem_eq_true_of_mem (by simp)
  have hc2 : ([id2, id1].contains id2) = true := List.elem_eq_true_of_mem (by simp)
  refine ⟨hq, ?_, ?_, ?_, ?_⟩ <;>
    simp [Undo, hq, hgo, hc1, hc2, List.filter]

/-- C5 witness: the scenario at concrete paths and timestamps, with the
chronological-order hypothesis discharged by evaluation. -/
theorem spec_C5_witness :
    undoQuery [⟨"i1", "t", "rename", "/a/x", "/a/y", 1⟩,
        ⟨"i2", "t", "move", "/a/y", "/b/y", 2⟩] "t" =
      [⟨"i2", "t", "move", "/a/y", "/b/y", 2⟩,
       ⟨"i1", "t", "rename", "/a/x", "/a/y", 1⟩] ∧
    (Undo [⟨"i1", "t", "rename", "/a/x", "/a/y", 1⟩,
        ⟨"i2", "t", "move", "/a/y", "/b/y", 2⟩] ⟨["/b/y"], []⟩ "t").undone = 2 ∧
    (Undo [⟨"i1", "t", "rename", "/a/x", "/a/y", 1⟩,
        ⟨"i2", "t", "move", "/a/y", "/b/y", 2⟩] ⟨["/b/y"], []⟩ "t").err = none ∧
    (Undo [⟨"i1", "t", "rename", "/a/x", "/a/y", 1⟩,
        ⟨"i2", "t", "move", "/a/y", "/b/y", 2⟩] ⟨["/b/y"], []⟩ "t").world.files = ["/a/x"] ∧
    (Undo [⟨"i1", "t", "rename", "/a/x", "/a/y", 1⟩,
        ⟨"i2", "t", "move", "/a/y", "/b/y", 2⟩] ⟨["/b/y"], []⟩ "t").ledger = [] :=
  spec_C5_theorem "/a/x" "/a/y" "/b/y" "t" "i1" "i2" 1 2 (by decide)

/-! ### Task queue invariants (claim C1) -/

/-- The retry-bound invariant over a queue state: every stored row and
every in-flight in-memory task keeps retry_count ≤ max_retries, and
(since only Enqueue creates them in a run) all carry the queue's
configured max_retries. -/
def InvQ (st : QueueState) : Prop :=
  (∀ r ∈ st.store, r.retryCount ≤ r.maxRetries ∧ r.maxRetries = st.maxRetries) ∧
  (∀ m ∈ st.buffer, m.retryCount ≤ m.maxRetries ∧ m.maxRetries = st.maxRetries) ∧
  (∀ pm ∈ st.deferred, pm.2.retryCount ≤ pm.2.maxRetries ∧ pm.2.maxRetries = st.maxRetries)

/-- `updateTask` keeps every row's retry bound as long as the in-memory
task's retry count respects the shared max_retries. -/
lemma updateTask_bound (store : List Task) (m : Task) (mr : Nat)
    (hs : ∀ r ∈ store, r.retryCount ≤ r.maxRetries ∧ r.maxRetries = mr)
    (hm : m.retryCount ≤ mr) :
    ∀ r ∈ updateTask store m, r.retryCount ≤ r.maxRetries ∧ r.maxRetries = mr := by
  intro r' hr'
  rw [updateTask] at hr'
  rcases List.mem_map.mp hr' with ⟨r, hr, heq⟩
  rcases hs r hr with ⟨h1, h2⟩
  by_cases h : (r.id == m.id) = true
  · simp only [h, if_true] at heq
    subst heq
    refine ⟨?_, ?_⟩
    · show m.retryCount ≤ r.maxRetries
      omega
    · show r.maxRetries = mr
      exact h2
  · simp only [h, if_false] at heq
    subst heq
    exact ⟨h1, h2⟩

/-- `cancelRow` keeps retry_count and max_retries untouched. -/
lemma cancelRow_fields (id : String) (r : Task) :
    (cancelRow id r).retryCount = r.retryCount ∧
    (cancelRow id r).maxRetries = r.maxRetries := by
  unfold cancelRow
  by_cases h : (r.id == id && (r.status == "pending" || r.status == "running")) = true
  · simp [h]
  · simp [h]

/-- `processTask` on an unregistered type: straight to failed. -/
lemma processTask_noHandler (st : QueueState) (m : Task) (o : Except String String)
    (h : st.handlers.contains m.ttype = false) :
    processTask st m o =
      { st with store := updateTask st.store ({ m with status := "failed", error := "no handler for task type: " ++ m.ttype }) } := by
  have hnot : ¬ m.ttype ∈ st.handlers := by simpa using h
  simp [processTask, failTask, hnot]

/-- `processTask` on a handler error with retries left: running is
persisted, then the task is reset to pending with retry_count + 1 and
handed to a deferred-resubmission goroutine tagged with the fixed
retry delay; the worker does not block and the buffer is untouched. -/
lemma processTask_retry (st : QueueState) (m : Task) (e : String)
    (hreg : st.handlers.contains m.ttype = true)
    (hlt : m.retryCount < m.maxRetries) :
    processTask st m (.error e) =
      { st with
        store := updateTask (updateTask st.store ({ m with status := "running" })) ({ m with status := "pending", retryCount := m.retryCount + 1 }),
        deferred := st.deferred ++ [(st.retryDelay, { m with status := "pending", retryCount := m.retryCount + 1 })] } := by
  have hmem : m.ttype ∈ st.handlers := by simpa using hreg
  simp [processTask, failTask, hmem, hlt]

/-- `processTask` on a handler error with retries exhausted: terminal
failed, the handler's error string stored as-is. -/
lemma processTask_exhaust (st : QueueState) (m : Task) (e : String)
    (hreg : st.handlers.contains m.ttype = true)
    (hge : ¬ m.retryCount < m.maxRetries) :
    processTask st m (.error e) =
      { st with store := updateTask (updateTask st.store ({ m with status := "running" })) ({ m with status := "failed", error := e }) } := by
  have hmem : m.ttype ∈ st.handlers := by simpa using hreg
  simp [processTask, failTask, hmem, hge]

/-- `processTask` on handler success: completed with the result stored. -/
lemma processTask_ok (st : QueueState) (m : Task) (r : String)
    (hreg : st.handlers.contains m.ttype = true) :
    processTask st m (.ok r) =
      { st with store := updateTask (updateTask st.store ({ m with status := "running" })) ({ m with status := "completed", result := some r }) } := by
  have hmem : m.ttype ∈ st.handlers := by simpa using hreg
  simp [processTask, hmem]

/-- `enqueue` on a duplicate id: the INSERT fails and nothing changes. -/
lemma enqueue_dup (st : QueueState) (ty p : String) (pr : Int) (now : Nat)
    (h : (st.store.any fun r => r.id == toString now) = true) :
    enqueue st ty p pr now = (st, .error "insert task: UNIQUE constraint failed") := by
  simp [enqueue, newTask, h]

/-- `enqueue` with room in the buffer: row inserted and task buffered. -/
lemma enqueue_room (st : QueueState) (ty p : String) (pr : Int) (now : Nat)
    (h : (st.store.any fun r => r.id == toString now) = false)
    (hr : st.buffer.length < st.cap) :
    enqueue st ty p pr now =
      ({ st with store := st.store ++ [newTask st ty p pr now],
                 buffer := st.buffer ++ [newTask st ty p pr now] },
       .ok (newTask st ty p pr now)) := by
  simp [enqueue, newTask, h, hr]

/-- `enqueue` with the buffer full: the pending row is inserted and
stays, but the caller gets the capacity error. -/
lemma enqueue_full (st : QueueState) (ty p : String) (pr : Int) (now : Nat)
    (h : (st.store.any fun r => r.id == toString now) = false)
    (hr : ¬ st.buffer.length < st.cap) :
    enqueue st ty p pr now =
      ({ st with store := st.store ++ [newTask st ty p pr now] },
       .error "task queue full") := by
  simp [enqueue, newTask, h, hr]

/-- `cancelTask` when the guarded UPDATE hits a pending/running row. -/
lemma cancelTask_hit (st : QueueState) (id : String)
    (h : (st.store.any fun r =>
        r.id == id && (r.status == "pending" || r.status == "running")) = true) :
    cancelTask st id = ({ st with store := st.store.map (cancelRow id) }, none) := by
  simp [cancelTask, h]

/-- `cancelTask` when no row is affected. -/
lemma cancelTask_miss (st : QueueState) (id : String)
    (h : (st.store.any fun r =>
        r.id == id && (r.status == "pending" || r.status == "running")) = false) :
    cancelTask st id = (st, some ("task " ++ id ++ " not found or already completed")) := by
  simp [cancelTask, h]

/-- Worker dispatch with an empty buffer does nothing. -/
lemma stepQ_dispatch_nil (st : QueueState) (o : Except String String)
    (h : st.buffer = []) : stepQ st (.dispatch o) = st := by
  simp [stepQ, h]

/-- Worker dispatch pops the buffer head and processes it. -/
lemma stepQ_dispatch_cons (st : QueueState) (o : Except String String) (m : Task)
    (rest : List Task) (h : st.buffer = m :: rest) :
    stepQ st (.dispatch o) = processTask { st with buffer := rest } m o := by
  simp [stepQ, h]

/-- Retry delivery with no deferred task does nothing. -/
lemma stepQ_deliver_nil (st : QueueState) (h : st.deferred = []) :
    stepQ st .deliverRetry = st := by
  simp [stepQ, h]

/-- Retry delivery moves the first deferred task into the buffer once
there is room. -/
lemma stepQ_deliver_cons (st : QueueState) (pm : Nat × Task) (rest : List (Nat × Task))
    (h : st.deferred = pm :: rest) :
    stepQ st .deliverRetry =
      if st.buffer.length < st.cap then
        { st with deferred := rest, buffer := st.buffer ++ [pm.2] }
      else st := by
  simp [stepQ, h]

/-- `processTask` preserves the retry-bound invariant: the retry branch
increments retry_count only when it is strictly below max_retries. -/
lemma processTask_inv (st : QueueState) (m : Task) (o : Except String String)
    (hstore : ∀ r ∈ st.store, r.retryCount ≤ r.maxRetries ∧ r.maxRetries = st.maxRetries)
    (hbuf : ∀ x ∈ st.buffer, x.retryCount ≤ x.maxRetries ∧ x.maxRetries = st.maxRetries)
    (hdef : ∀ pm ∈ st.deferred, pm.2.retryCount ≤ pm.2.maxRetries ∧ pm.2.maxRetries = st.maxRetries)
    (hm1 : m.retryCount ≤ m.maxRetries) (hm2 : m.maxRetries = st.maxRetries) :
    InvQ (processTask st m o) := by
  have hmr : m.retryCount ≤ st.maxRetries := by omega
  by_cases hreg : st.handlers.contains m.ttype = true
  · cases o with
    | error e =>
      by_cases hlt : m.retryCount < m.maxRetries
      · rw [processTask_retry st m e hreg hlt]
        refine ⟨?_, hbuf, ?_⟩
        · exact updateTask_bound _ _ st.maxRetries
            (updateTask_bound st.store _ st.maxRetries hstore hmr)
            (show m.retryCount + 1 ≤ st.maxRetries by omega)
        · intro pm hpm
          rcases List.mem_append.mp hpm with hp | hp
          · exact hdef pm hp
          · rcases List.mem_singleton.mp hp with rfl
            exact ⟨show m.retryCount + 1 ≤ m.maxRetries by omega,
                   show m.maxRetries = st.maxRetries from hm2⟩
      · rw [processTask_exhaust st m e hreg hlt]
        exact ⟨updateTask_bound _ _ st.maxRetries
          (updateTask_bound st.store _ st.maxRetries hstore hmr) hmr, hbuf, hdef⟩
    | ok r =>
      rw [processTask_ok st m r hreg]
      exact ⟨updateTask_bound _ _ st.maxRetries
        (updateTask_bound st.store _ st.maxRetries hstore hmr) hmr, hbuf, hdef⟩
  · rw [processTask_noHandler st m o (by simpa using hreg)]
    exact ⟨updateTask_bound st.store _ st.maxRetries hstore hmr, hbuf, hdef⟩

/-- Every queue action preserves the retry-bound invariant. -/
lemma stepQ_inv (st : QueueState) (a : QAction) (h : InvQ st) : InvQ (stepQ st a) := by
  rcases h with ⟨hstore, hbuf, hdef⟩
  cases a with
  | enq ty p pr now =>
    show InvQ (enqueue st ty p pr now).1
    by_cases hdup : (st.store.any fun r => r.id == toString now) = true
    · rw [enqueue_dup st ty p pr now hdup]
      exact ⟨hstore, hbuf, hdef⟩
    · have hdup' : (st.store.any fun r => r.id == toString now) = false := by
        simpa using hdup
      by_cases hr : st.buffer.length < st.cap
      · rw [enqueue_room st ty p pr now hdup' hr]
        refine ⟨?_, ?_, hdef⟩
        · intro r hmem
          rcases List.mem_append.mp hmem with hmem | hmem
          · exact hstore r hmem
          · rcases List.mem_singleton.mp hmem with rfl
            exact ⟨Nat.zero_le _, rfl⟩
        · intro x hx
          rcases List.mem_append.mp hx with hx | hx
          · exact hbuf x hx
          · rcases List.mem_singleton.mp hx with rfl
            exact ⟨Nat.zero_le _, rfl⟩
      · rw [enqueue_full st ty p pr now hdup' hr]
        refine ⟨?_, hbuf, hdef⟩
        intro r hmem
        rcases List.mem_append.mp hmem with hmem | hmem
        · exact hstore r hmem
        · rcases List.mem_singleton.mp hmem with rfl
          exact ⟨Nat.zero_le _, rfl⟩
  | cancel id =>
    show InvQ (cancelTask st id).1
    by_cases hhit : (st.store.any fun r =>
        r.id == id && (r.status == "pending" || r.status == "running")) = true
    · rw [cancelTask_hit st id hhit]
      refine ⟨?_, hbuf, hdef⟩
      intro r hmem
      rcases List.mem_map.mp hmem with ⟨r0, hr0, rfl⟩
      rcases hstore r0 hr0 with ⟨h1, h2⟩
      rcases cancelRow_fields id r0 with ⟨hrc, hmr⟩
      rw [hrc, hmr]
      exact ⟨h1, h2⟩
    · rw [cancelTask_miss st id (by simpa using hhit)]
      exact ⟨hstore, hbuf, hdef⟩
  | dispatch outcome =>
    cases hb : st.buffer with
    | nil =>
      rw [stepQ_dispatch_nil st outcome hb]
      exact ⟨hstore, hbuf, hdef⟩
    | cons m rest =>
      rw [stepQ_dispatch_cons st outcome m rest hb]
      have hm := hbuf m (by rw [hb]; exact List.mem_cons_self m rest)
      refine processTask_inv _ m outcome hstore ?_ hdef hm.1 hm.2
      intro x hx
      exact hbuf x (by rw [hb]; exact List.mem_cons_of_mem _ hx)
  | deliverRetry =>
    cases hd : st.deferred with
    | nil =>
      rw [stepQ_deliver_nil st hd]
      exact ⟨hstore, hbuf, hdef⟩
    | cons pm rest =>
      rw [stepQ_deliver_cons st pm rest hd]
      by_cases hr : st.buffer.length < st.cap
      · rw [if_pos hr]
        refine ⟨hstore, ?_, ?_⟩
        · intro x hx
          rcases List.mem_append.mp hx with hx | hx
          · exact hbuf x hx
          · rcases List.mem_singleton.mp hx with rfl
            exact hdef pm (by rw [hd]; exact List.mem_cons_self pm rest)
        · intro q hq
          exact hdef q (by rw [hd]; exact List.mem_cons_of_mem _ hq)
      · rw [if_neg hr]
        exact ⟨hstore, hbuf, hdef⟩

/-- The invariant holds along any action sequence. -/
lemma runQ_inv (acts : List QAction) : ∀ st, InvQ st → InvQ (runQ st acts) := by
  induction acts with
  | nil => intro st h; exact h
  | cons a rest ih => intro st h; exact ih _ (stepQ_inv st a h)

/-- `cancelRow` leaves a terminal (failed or completed) row unchanged:
the UPDATE of CancelTask is guarded to pending/running rows. -/
lemma cancelRow_of_terminal (id : String) (r : Task)
    (h : r.status = "failed" ∨ r.status = "completed") : cancelRow id r = r := by
  rcases h with h | h <;> simp [cancelRow, h]

/-- C1, amended: retry_count ≤ max_retries holds for every stored task
row in every state reachable by queue actions from a fresh queue, and
CancelTask never moves a task out of a terminal status (its UPDATE is
guarded to pending/running rows); however, a worker dispatching a
buffered task overwrites the stored status unconditionally, so a task
cancelled to failed while still buffered (or running) can be moved back
to running and then completed or pending — see the counterexample. -/
theorem spec_C1_theorem :
    (∀ (handlers : List String) (cap mr rd tt : Nat) (acts : List QAction)
       (r : Task), r ∈ (runQ (initQueue handlers cap mr rd tt) acts).store →
         r.retryCount ≤ r.maxRetries) ∧
    (∀ (id : String) (r : Task),
       r.status = "failed" ∨ r.status = "completed" → cancelRow id r = r) := by
  constructor
  · intro handlers cap mr rd tt acts r hr
    have hinv : InvQ (initQueue handlers cap mr rd tt) := by
      refine ⟨?_, ?_, ?_⟩ <;> intro x hx <;> simp [initQueue] at hx
    exact ((runQ_inv acts _ hinv).1 r hr).1
  · exact cancelRow_of_terminal

/-- The status the store records for a task id. -/
def taskStatus (st : QueueState) (id : String) : Option String :=
  (st.store.find? (fun r => r.id == id)).map Task.status

/-- A fresh queue with one registered handler type. -/
def c1Queue : QueueState := initQueue ["t"] 100 3 5 30

/-- Enqueue a task, then cancel it while it still sits in the dispatch
buffer: the store now says failed (terminal). -/
def c1Cancelled : QueueState := runQ c1Queue [.enq "t" "p" 0 42, .cancel "42"]

/-- A worker then pulls the still-buffered task and its handler
succeeds. -/
def c1After : QueueState := stepQ c1Cancelled (.dispatch (.ok "r"))

/-- C1, counterexample to the claim as stated: after CancelTask the
task is terminally failed, yet the worker dispatch of the buffered copy
rewrites it to completed — a later queue action moved the task out of a
terminal status. -/
theorem spec_C1_counterexample :
    taskStatus c1Cancelled "42" = some "failed" ∧
    taskStatus c1After "42" = some "completed" := by
  refine ⟨by decide, by decide⟩

/-- C1 witness: the retry bound applied to the concrete row created by
one Enqueue action, and terminal-row preservation applied to a concrete
failed row. -/
theorem spec_C1_witness :
    (⟨"9", "t", 0, "p", "pending", none, "", 9, 0, 3⟩ : Task).retryCount ≤
      (⟨"9", "t", 0, "p", "pending", none, "", 9, 0, 3⟩ : Task).maxRetries ∧
    cancelRow "x" ⟨"9", "t", 0, "p", "failed", none, "boom", 9, 0, 3⟩ =
      ⟨"9", "t", 0, "p", "failed", none, "boom", 9, 0, 3⟩ := by
  constructor
  · exact spec_C1_theorem.1 ["t"] 100 3 5 30 [QAction.enq "t" "p" 0 9] _ (by decide)
  · exact spec_C1_theorem.2 "x" _ (Or.inl rfl)

/-! ### Retry semantics (claim C6) -/

/-- `updateTask` gives every row whose id matches the in-memory task
exactly the task's status, retry count, error and result. -/
lemma updateTask_id_fields (store : List Task) (m : Task) :
    ∀ r ∈ updateTask store m, r.id = m.id →
      r.status = m.status ∧ r.retryCount = m.retryCount ∧
      r.error = m.error ∧ r.result = m.result := by
  intro r' hr' hid
  rw [updateTask] at hr'
  rcases List.mem_map.mp hr' with ⟨r, hr, heq⟩
  by_cases h : (r.id == m.id) = true
  · rw [if_pos h] at heq
    subst heq
    exact ⟨rfl, rfl, rfl, rfl⟩
  · rw [if_neg h] at heq
    subst heq
    exact absurd (beq_iff_eq.mpr hid) h

/-- C6: on a handler error with retry_count < max_retries the queue
increments retry_count, resets the stored status to pending, and hands
the task to a deferred goroutine tagged with the fixed retry delay (the
buffer — and hence the worker — is not blocked); with retries exhausted
the stored status becomes failed with the handler's error string stored
verbatim; with no registered handler it becomes failed with the
"no handler for task type" error. -/
theorem spec_C6_theorem (st : QueueState) (m : Task) (e : String) :
    (st.handlers.contains m.ttype = true → m.retryCount < m.maxRetries →
      (∀ r ∈ (processTask st m (.error e)).store, r.id = m.id →
          r.status = "pending" ∧ r.retryCount = m.retryCount + 1) ∧
      (processTask st m (.error e)).deferred =
        st.deferred ++ [(st.retryDelay, { m with status := "pending", retryCount := m.retryCount + 1 })] ∧
      (processTask st m (.error e)).buffer = st.buffer) ∧
    (st.handlers.contains m.ttype = true → ¬ m.retryCount < m.maxRetries →
      (∀ r ∈ (processTask st m (.error e)).store, r.id = m.id →
          r.status = "failed" ∧ r.error = e) ∧
      (processTask st m (.error e)).deferred = st.deferred ∧
      (processTask st m (.error e)).buffer = st.buffer) ∧
    (st.handlers.contains m.ttype = false → ∀ o : Except String String,
      (∀ r ∈ (processTask st m o).store, r.id = m.id →
          r.status = "failed" ∧ r.error = "no handler for task type: " ++ m.ttype) ∧
      (processTask st m o).deferred = st.deferred ∧
      (processTask st m o).buffer = st.buffer) := by
  refine ⟨?_, ?_, ?_⟩
  · intro hreg hlt
    rw [processTask_retry st m e hreg hlt]
    refine ⟨?_, rfl, rfl⟩
    intro r hr hid
    have h := updateTask_id_fields _ _ r hr hid
    exact ⟨h.1, h.2.1⟩
  · intro hreg hge
    rw [processTask_exhaust st m e hreg hge]
    refine ⟨?_, rfl, rfl⟩
    intro r hr hid
    have h := updateTask_id_fields _ _ r hr hid
    exact ⟨h.1, h.2.2.1⟩
  · intro hno o
    rw [processTask_noHandler st m o hno]
    refine ⟨?_, rfl, rfl⟩
    intro r hr hid
    have h := updateTask_id_fields _ _ r hr hid
    exact ⟨h.1, h.2.2.1⟩

/-- A queue whose one stored task has already been retried once with
max_retries = 2. -/
def c6Task : Task := ⟨"1", "t", 0, "p", "pending", none, "", 1, 1, 2⟩

/-- The queue state holding `c6Task`. -/
def c6St : QueueState :=
  { store := [c6Task], buffer := [], deferred := [], handlers := ["t"],
    cap := 100, maxRetries := 2, retryDelay := 5, taskTimeout := 30 }

/-- C6 witness: the retry branch applied at a concrete task with
retries left, hypotheses discharged by evaluation. -/
theorem spec_C6_witness :
    c6St.handlers.contains c6Task.ttype = true ∧
    c6Task.retryCount < c6Task.maxRetries ∧
    (processTask c6St c6Task (.error "boom")).deferred =
      c6St.deferred ++ [(c6St.retryDelay, { c6Task with status := "pending", retryCount := c6Task.retryCount + 1 })] ∧
    (processTask c6St c6Task (.error "boom")).buffer = c6St.buffer :=
  ⟨by decide, by decide,
   ((spec_C6_theorem c6St c6Task "boom").1 (by decide) (by decide)).2.1,
   ((spec_C6_theorem c6St c6Task "boom").1 (by decide) (by decide)).2.2⟩

/-! ### Handler context (claim C3) -/

/-- C3: the context `processTask` hands to the handler carries the
per-task deadline but no task id — `TaskIDFromContext` evaluates to the
empty string inside every handler invocation, so pipelines never tag
undo records, contradicting the claim and the repository's own
`TestTaskIDInContext`. -/
theorem spec_C3_theorem :
    ∀ st : QueueState, (processTaskCtx st).deadline = some st.taskTimeout ∧
      TaskIDFromContext (processTaskCtx st) = "" :=
  fun _ => ⟨rfl, rfl⟩

/-! ### Enqueue on a full buffer (claim C9) -/

/-- C9: when Enqueue hits a full dispatch buffer it returns the
"task queue full" error, yet the task row has already been inserted
with status pending, is not removed, does not enter the buffer, and is
among the pending/running rows that restart recovery selects. -/
theorem spec_C9_theorem (st : QueueState) (ttype payload : String) (priority : Int)
    (now : Nat)
    (hfull : ¬ st.buffer.length < st.cap)
    (hfresh : (st.store.any fun r => r.id == toString now) = false) :
    (enqueue st ttype payload priority now).2 = .error "task queue full" ∧
    (enqueue st ttype payload priority now).1.store =
      st.store ++ [newTask st ttype payload priority now] ∧
    (newTask st ttype payload priority now).status = "pending" ∧
    (enqueue st ttype payload priority now).1.buffer = st.buffer ∧
    newTask st ttype payload priority now ∈
      ((enqueue st ttype payload priority now).1.store.filter fun r =>
        r.status == "pending" || r.status == "running") := by
  rw [enqueue_full st ttype payload priority now hfresh hfull]
  refine ⟨rfl, rfl, rfl, rfl, ?_⟩
  apply List.mem_filter.mpr
  refine ⟨List.mem_append_right _ (List.mem_singleton_self _), by simp [newTask]⟩

/-- A queue with a zero-capacity buffer: every Enqueue hits the
capacity error. -/
def c9St : QueueState := initQueue ["t"] 0 3 5 30

/-- C9 witness: the full-buffer Enqueue at a concrete queue, hypotheses
discharged by evaluation. -/
theorem spec_C9_witness :
    (enqueue c9St "t" "p" 0 7).2 = .error "task queue full" ∧
    (enqueue c9St "t" "p" 0 7).1.store = c9St.store ++ [newTask c9St "t" "p" 0 7] ∧
    (newTask c9St "t" "p" 0 7).status = "pending" ∧
    (enqueue c9St "t" "p" 0 7).1.buffer = c9St.buffer ∧
    newTask c9St "t" "p" 0 7 ∈
      ((enqueue c9St "t" "p" 0 7).1.store.filter fun r =>
        r.status == "pending" || r.status == "running") :=
  spec_C9_theorem c9St "t" "p" 0 7 (by decide) (by decide)

/-! ### Restart recovery (claim C10) -/

/-- The non-blocking resubmission fold fills the buffer with exactly
the first tasks that fit and silently skips the rest. -/
lemma restartFoldTake (cap : Nat) :
    ∀ (rows : List Task) (buf : List Task),
      rows.foldl (fun b r => if b.length < cap then b ++ [restartRow r] else b) buf =
        buf ++ (rows.map restartRow).take (cap - buf.length) := by
  intro rows
  induction rows with
  | nil => intro buf; simp
  | cons r rest ih =>
    intro buf
    by_cases h : buf.length < cap
    · simp only [List.foldl_cons, h, if_true]
      rw [ih]
      have hlen : (buf ++ [restartRow r]).length = buf.length + 1 := by simp
      rw [hlen]
      have h1 : cap - buf.length = (cap - (buf.length + 1)) + 1 := by omega
      rw [List.map_cons, h1, List.take_succ_cons]
      simp
    · simp only [List.foldl_cons, h, if_false]
      rw [ih]
      have h0 : cap - buf.length = 0 := by omega
      rw [List.map_cons, h0, List.take_zero, List.take_zero]

/-- The restart ordering key, as a proposition. -/
lemma restartBefore_iff (a b : Task) : restartBefore a b = true ↔
    (b.priority < a.priority ∨ (a.priority = b.priority ∧ a.createdAt < b.createdAt)) := by
  simp [restartBefore]

/-- The restart ordering is asymmetric. -/
lemma restartBefore_asym (a b : Task) (h : restartBefore a b = true) :
    restartBefore b a = false := by
  rw [restartBefore_iff] at h
  rw [← Bool.not_eq_true, restartBefore_iff]
  omega

/-- Inserting into a list ordered by the restart key keeps it ordered. -/
lemma chain'_insertRestart (x : Task) :
    ∀ l, List.Chain' (fun a b => restartBefore b a = false) l →
      List.Chain' (fun a b => restartBefore b a = false) (insertRestart x l) := by
  intro l
  induction l with
  | nil =>
    intro _
    exact List.chain'_singleton x
  | cons y ys ih =>
    intro h
    unfold insertRestart
    by_cases hxy : restartBefore x y = true
    · rw [if_pos hxy]
      exact List.chain'_cons.mpr ⟨restartBefore_asym _ _ hxy, h⟩
    · rw [if_neg hxy]
      have hxy' : restartBefore x y = false := by
        simpa using hxy
      cases ys with
      | nil =>
        show List.Chain' _ (y :: insertRestart x [])
        unfold insertRestart
        exact List.chain'_cons.mpr ⟨hxy', List.chain'_singleton x⟩
      | cons z zs =>
        have hyz : restartBefore z y = false := (List.chain'_cons.mp h).1
        have hzs : List.Chain' (fun a b => restartBefore b a = false) (z :: zs) :=
          (List.chain'_cons.mp h).2
        have hins := ih hzs
        show List.Chain' _ (y :: insertRestart x (z :: zs))
        unfold insertRestart
        by_cases hxz : restartBefore x z = true
        · rw [if_pos hxz]
          exact List.chain'_cons.mpr ⟨hxy',
            List.chain'_cons.mpr ⟨restartBefore_asym _ _ hxz, hzs⟩⟩
        · rw [if_neg hxz]
          have heq : insertRestart x (z :: zs) = z :: insertRestart x zs := by
            conv_lhs => rw [insertRestart]
            rw [if_neg hxz]
          rw [heq] at hins
          exact List.chain'_cons.mpr ⟨hyz, hins⟩

/-- The restart query's ORDER BY produces a list ordered by priority
descending, then creation time ascending. -/
lemma chain'_sortRestart :
    ∀ l, List.Chain' (fun a b => restartBefore b a = false) (sortRestart l) := by
  intro l
  induction l with
  | nil => exact List.chain'_nil
  | cons x xs ih => exact chain'_insertRestart x _ ih

/-- C10: restart recovery selects the pending/running rows in
priority-descending, creation-time-ascending order and resubmits each
only while the dispatch buffer has free capacity; recovered tasks that
do not fit are skipped, the function reports no error, and the store —
where the skipped tasks stay pending — is untouched. -/
theorem spec_C10_theorem (st : QueueState) :
    (restartPending st).2 = none ∧
    (restartPending st).1.store = st.store ∧
    (restartPending st).1.buffer =
      st.buffer ++ ((sortRestart (st.store.filter fun r =>
        r.status == "pending" || r.status == "running")).map restartRow).take
        (st.cap - st.buffer.length) ∧
    List.Chain' (fun a b => restartBefore b a = false)
      (sortRestart (st.store.filter fun r =>
        r.status == "pending" || r.status == "running")) := by
  refine ⟨rfl, rfl, ?_, chain'_sortRestart _⟩
  show (sortRestart (st.store.filter fun r =>
      r.status == "pending" || r.status == "running")).foldl
      (fun buf r => if buf.length < st.cap then buf ++ [restartRow r] else buf) st.buffer = _
  exact restartFoldTake st.cap _ st.buffer

/-! ### Settle (claim C8) -/

/-- A file whose size is constant across the two checks settles after
one full delay, with no cancellation pending. -/
lemma waitForSettle_stable (sizeAt : Nat → Option Int) (d s : Int) (hd : 0 < d)
    (h0 : sizeAt 0 = some s) (h1 : sizeAt d.toNat = some s) :
    waitForSettle none sizeAt d = (.ok (), d.toNat) := by
  have hdel : settleDelay d = d.toNat := if_neg (by omega)
  simp [waitForSettle, hdel, h0, h1, selectWait]

/-- C8: size-stable across the two checks `delayMs` apart → success
after exactly one delay; missing at the first check → immediate
"file not found" under any context; disappearing between the checks →
"file disappeared"; an already-cancelled context → immediate failure at
time 0, strictly less than the full delay. -/
theorem spec_C8_theorem (sizeAt : Nat → Option Int) (d s : Int) (hd : 0 < d) :
    (sizeAt 0 = some s → sizeAt d.toNat = some s →
      waitForSettle none sizeAt d = (.ok (), d.toNat)) ∧
    (∀ tc, sizeAt 0 = none →
      (waitForSettle tc sizeAt d).1 = .error "file not found") ∧
    (sizeAt 0 = some s → sizeAt d.toNat = none →
      (waitForSettle none sizeAt d).1 = .error "file disappeared") ∧
    (sizeAt 0 = some s →
      waitForSettle (some 0) sizeAt d = (.error "context canceled", 0) ∧
      0 < settleDelay d) := by
  have hdel : settleDelay d = d.toNat := if_neg (by omega)
  refine ⟨fun h0 h1 => waitForSettle_stable sizeAt d s hd h0 h1, ?_, ?_, ?_⟩
  · intro tc h0
    simp [waitForSettle, h0]
  · intro h0 h1
    simp [waitForSettle, hdel, h0, h1, selectWait]
  · intro h0
    have hpos : 0 < d.toNat := by omega
    refine ⟨?_, by omega⟩
    simp [waitForSettle, hdel, h0, selectWait, show ¬ d ≤ 0 by omega]

/-- C8 witness: the four cases at a concrete delay and size timeline,
hypotheses discharged by evaluation. -/
theorem spec_C8_witness :
    waitForSettle none (fun _ => some (5 : Int)) 100 = (.ok (), (100 : Int).toNat) ∧
    (waitForSettle none (fun _ => none) 100).1 = .error "file not found" ∧
    (waitForSettle none (fun t => if t = 0 then some (5 : Int) else none) 100).1 =
      .error "file disappeared" ∧
    waitForSettle (some 0) (fun _ => some (5 : Int)) 100 = (.error "context canceled", 0) :=
  ⟨(spec_C8_theorem (fun _ => some 5) 100 5 (by decide)).1 rfl rfl,
   (spec_C8_theorem (fun _ => none) 100 5 (by decide)).2.1 none rfl,
   (spec_C8_theorem (fun t => if t = 0 then some 5 else none) 100 5 (by decide)).2.2.1
     rfl (by decide),
   ((spec_C8_theorem (fun _ => some 5) 100 5 (by decide)).2.2.2 rfl).1⟩

/-! ### Auto-file pipeline scenario (claim C7) -/

/-- C7: an auto-file run on the existing, size-stable /tmp/report.pdf
with auto_move enabled, auto_rename disabled, the pdf extension mapped
to category "documents" at /docs, and no conflict at the destination,
succeeds with steps exactly settle:ok, classify:ok(documents),
move:ok(/docs/report.pdf) in that order and final_path
/docs/report.pdf. -/
theorem spec_C7_theorem (w : World) (cfg : AutoFileCfg) (cat : Category)
    (sizeAt : Nat → Option Int) (llm ren : Except String String) (sz : Int)
    (hd : 0 < cfg.settleDelayMs)
    (hmoveOn : cfg.autoMove = true)
    (hrenOff : cfg.autoRename = false)
    (hfind : findExtCategory cfg.categories "pdf" = some cat)
    (hname : cat.name = "documents") (hpath : cat.path = "/docs")
    (hsrc : statExists w "/tmp/report.pdf" = true)
    (hdst : statExists w "/docs/report.pdf" = false)
    (hfail : w.failingRenames = [])
    (h0 : sizeAt 0 = some sz) (h1 : sizeAt cfg.settleDelayMs.toNat = some sz) :
    (RunAutoFilePipeline ⟨none, sizeAt, llm, ren⟩ w cfg "" "/tmp/report.pdf").1 =
      .ok ⟨"/tmp/report.pdf", "/docs/report.pdf", "documents", "",
        [⟨"settle", "ok", ""⟩, ⟨"classify", "ok", "documents"⟩,
         ⟨"move", "ok", "/docs/report.pdf"⟩]⟩ := by
  have hsettle := waitForSettle_stable sizeAt cfg.settleDelayMs sz hd h0 h1
  have hext : trimDot (filepathExt "/tmp/report.pdf") = "pdf" := by decide
  have hbase : filepathBase "/tmp/report.pdf" = "report.pdf" := by decide
  have hjoin : filepathJoin "/docs" "report.pdf" = "/docs/report.pdf" := by decide
  have hclass : handleFileClassify w cfg llm "/tmp/report.pdf" =
      .ok ⟨"documents", "/docs/report.pdf", "high"⟩ := by
    unfold handleFileClassify
    rw [if_neg (by decide : ¬ ("/tmp/report.pdf" = ""))]
    rw [hsrc]
    simp only [Bool.not_true, Bool.false_eq_true, if_false]
    rw [hext, hfind, hbase]
    simp [hname, hpath, hjoin]
  have hres : resolveConflict w "/docs/report.pdf" = "/docs/report.pdf" := by
    unfold resolveConflict
    rw [hdst]
    simp
  have hmove : MoveFile w "/tmp/report.pdf" "/docs/report.pdf" =
      .ok ("/docs/report.pdf",
        { w with files := "/docs/report.pdf" :: w.files.erase "/tmp/report.pdf" }) := by
    unfold MoveFile renameFS
    simp [hsrc, hres, hfail]
  simp [RunAutoFilePipeline, hsettle, hclass, hmove, hmoveOn, hrenOff]

/-- C7 witness: the scenario at a fully concrete world and
configuration, hypotheses discharged by evaluation. -/
theorem spec_C7_witness :
    (RunAutoFilePipeline ⟨none, fun _ => some 5, .error "x", .error "y"⟩
        ⟨["/tmp/report.pdf"], []⟩
        ⟨"/r", [⟨"documents", "/docs", ["pdf"], ""⟩], false, true, false, 2000⟩
        "" "/tmp/report.pdf").1 =
      .ok ⟨"/tmp/report.pdf", "/docs/report.pdf", "documents", "",
        [⟨"settle", "ok", ""⟩, ⟨"classify", "ok", "documents"⟩,
         ⟨"move", "ok", "/docs/report.pdf"⟩]⟩ :=
  spec_C7_theorem ⟨["/tmp/report.pdf"], []⟩
    ⟨"/r", [⟨"documents", "/docs", ["pdf"], ""⟩], false, true, false, 2000⟩
    ⟨"documents", "/docs", ["pdf"], ""⟩ (fun _ => some 5) (.error "x") (.error "y") 5
    (by decide) rfl rfl (by decide) rfl rfl (by decide) (by decide) rfl rfl rfl

end Bender
